import Mathlib

/-!
Verification development for the pet-chip-reader event pipeline
(`src/rfid_cam`).  The Python sources are shallowly embedded: strings are
lists of Unicode code points (`List Nat`), times are rationals in seconds,
fallible code returns `Option`/`Except`, and the stateful components are
explicit state-passing functions.  Every definition mirrors the function of
the same name in `src/rfid_cam/src/single_camera_test.py` (the functions in
`a04_dualcam_notify.py` cited by the codec claims are textually identical),
except where a doc comment says `Modelled from the spec:`.
-/

namespace RfidCam

/-! ### Frame codec (`calculate_bcc`, `parse_response`) -/

/-- Code point of the frame start marker `$`. -/
def dollarChar : Nat := 36

/-- Code point of the frame end marker `#`. -/
def hashChar : Nat := 35

/-- XOR of a list of byte values, as in `bcc ^= byte` folded over the data. -/
def xorBytes (l : List Nat) : Nat := l.foldl Nat.xor 0

/-- Code point of the uppercase hex digit for `n < 16`,
as produced by the format `{bcc:02X}`. -/
def hexDigit (n : Nat) : Nat := if n < 10 then 48 + n else 55 + n

/-- The two-character uppercase hex rendering of a byte value `b < 256`. -/
def hexByte (b : Nat) : List Nat := [hexDigit (b / 16), hexDigit (b % 16)]

/-- Embedding of `calculate_bcc(data)`: XOR checksum of `data.encode('ascii')`, rendered as
two uppercase hex digits.  `data.encode('ascii')` raises `UnicodeEncodeError`
on a code point above 127, modelled by `none`. -/
def calculate_bcc (data : List Nat) : Option (List Nat) :=
  if data.all (fun c => c < 128) then some (hexByte (xorBytes data)) else none

/-- Is `c` the code point of an ASCII decimal digit (what `\d` matches on
ASCII text)? -/
def isDigitChar (c : Nat) : Bool := 48 ≤ c && c ≤ 57

/-- Does the regex `\d{15}` match at the start of `l`, i.e. are 15 digit
characters available there? -/
def isRun15 (l : List Nat) : Bool :=
  (l.take 15).length == 15 && (l.take 15).all isDigitChar

/-- Embedding of the search `(\d\x7b15\x7d)` over the data: the leftmost run of 15 consecutive digit
characters, if any. -/
def findTag15 : List Nat → Option (List Nat)
  | [] => none
  | c :: rest =>
    if isRun15 (c :: rest) then some ((c :: rest).take 15)
    else findTag15 rest

/-- Embedding of `parse_response(response)`: checks the `$`…`#` framing, splits off the
trailing two-character BCC, verifies it against `calculate_bcc` of the data
segment and searches the data for a 15-digit id.  `Except.error ()` marks an
exception escaping the function (only `calculate_bcc` can raise);
`Except.ok none` is the "no event this cycle" result. -/
def parse_response (response : List Nat) : Except Unit (Option (List Nat)) :=
  if response = [] ∨ response.head? ≠ some dollarChar ∨
      response.getLast? ≠ some hashChar then
    .ok none
  else
    let payload := (response.drop 1).dropLast
    if payload.length < 4 then
      .ok none
    else
      let data := payload.take (payload.length - 2)
      let bccReceived := payload.drop (payload.length - 2)
      match calculate_bcc data with
      | none => .error ()
      | some bccCalculated =>
        if bccCalculated ≠ bccReceived then .ok none
        else .ok (findTag15 data)

/-- There is a run of 15 consecutive digit characters starting at index `i`
of `d` (a 15-digit numeric substring at offset `i`). -/
def hasRun15At (d : List Nat) (i : Nat) : Prop :=
  isRun15 (d.drop i) = true

instance (d : List Nat) (i : Nat) : Decidable (hasRun15At d i) := by
  unfold hasRun15At; infer_instance

/-! ### Deduplicator (`is_duplicate_tag` in `single_camera_test.py`)

State is the dictionary `last_tag_time : tag_id -> datetime`, embedded as a
function into `Option ℚ` (seconds).  The Python function returns `True`
without touching the dictionary when the previous sighting is strictly
within `dedupe_seconds`, and otherwise stores `now` and returns `False`. -/

/-- Embedding of `is_duplicate_tag(tag_id)` at time `now`: the returned flag and the
updated `last_tag_time` mapping. -/
def is_duplicate_tag (dedupeSeconds : ℚ) (lastTagTime : String → Option ℚ)
    (tagId : String) (now : ℚ) : Bool × (String → Option ℚ) :=
  match lastTagTime tagId with
  | some t =>
    if now - t < dedupeSeconds then (true, lastTagTime)
    else (false, fun x => if x = tagId then some now else lastTagTime x)
  | none => (false, fun x => if x = tagId then some now else lastTagTime x)

/-! ### Batch aggregator (`_batch_processor_worker`, `_process_batch`)

Per-tag state: the `pending_batches[chip_id]` list and the deadline of the
live `threading.Timer`, if any.  A new detection appends to the pending
list, cancels the existing timer and schedules a new one at
`now + batch_delay`; a timer that fires copies the pending list, clears it,
and (when non-empty) hands the batch on.  The run function plays a timed
list of detections for one tag against this state, firing a due timer
before delivering a later detection. -/

/-- Per-tag aggregator state: pending detections in arrival order and the
deadline of the live flush timer. -/
structure AggState where
  pending : List Nat
  deadline : Option ℚ
  deriving Repr, DecidableEq

/-- A new detection for the tag: append, cancel any existing timer,
schedule a new timer at `now + delay`. -/
def aggArrive (delay now : ℚ) (d : Nat) (s : AggState) : AggState :=
  { pending := s.pending ++ [d], deadline := some (now + delay) }

/-- Embedding of the flush in `_process_batch`: copy the pending list, clear it; an empty batch is
dropped (`if not batch: return`). -/
def aggFire (dl : ℚ) (s : AggState) : List (ℚ × List Nat) :=
  if s.pending = [] then [] else [(dl, s.pending)]

/-- One incoming detection `(t, d)`: a timer already due at or before `t`
fires first, then the detection is appended and the timer rescheduled. -/
def aggStep (delay : ℚ) (t : ℚ) (d : Nat) (s : AggState) :
    List (ℚ × List Nat) × AggState :=
  match s.deadline with
  | some dl =>
    if dl ≤ t then (aggFire dl s, aggArrive delay t d ⟨[], none⟩)
    else ([], aggArrive delay t d s)
  | none => ([], aggArrive delay t d s)

/-- Play a timed detection sequence for one tag, collecting the flushed
batches `(flush time, batch)`; after the last detection the remaining timer
fires. -/
def runAgg (delay : ℚ) : List (ℚ × Nat) → AggState → List (ℚ × List Nat)
  | [], s =>
    match s.deadline with
    | some dl => aggFire dl s
    | none => []
  | (t, d) :: rest, s =>
    let p := aggStep delay t d s
    p.1 ++ runAgg delay rest p.2

/-! ### Encounter ledger (`_calculate_encounter_stats` and the
history-recording tail of `_process_batch`) -/

/-- The hard-coded retention of `timedelta(days=7)`, in seconds. -/
def retentionSeconds : ℚ := 7 * 24 * 60 * 60

/-- Embedding of `_calculate_encounter_stats(chip_id)`:
`recent_count = 1 + #{t ∈ history | t ≥ now - window}` and
`total_count = len(history) + 1`, the `+1` standing for the encounter just
being recorded (which is appended to the history only afterwards). -/
def calculate_encounter_stats (windowMinutes : ℚ) (now : ℚ)
    (history : List ℚ) : Nat × Nat :=
  let windowStart := now - windowMinutes * 60
  (1 + (history.filter (fun t => windowStart ≤ t)).length, history.length + 1)

/-- The lazy purge of `_process_batch`:
`while history and history[0] < cutoff: history.popleft()`. -/
def purgeFront (cutoff : ℚ) : List ℚ → List ℚ
  | [] => []
  | t :: rest => if t < cutoff then purgeFront cutoff rest else t :: rest

/-- The history-recording tail of `_process_batch`: append `now`, then purge
entries older than the 7-day retention window from the front. -/
def recordEncounter (now : ℚ) (history : List ℚ) : List ℚ :=
  purgeFront (now - retentionSeconds) (history ++ [now])

/-! ### Delivery pipeline (`upload_photos`, `store_photos_locally`,
`upload_retry_queue`)

Photos are identifiers (`Nat`); the per-photo transport outcome of
`subprocess.run(['rclone', 'copy', ...])` is an oracle
`Nat → TransportResult`.  `upload_photos` walks the batch: a zero exit
collects a link, a non-zero exit or an in-attempt exception appends to
`failed_uploads`, while `subprocess.TimeoutExpired` is caught and only
logged — the photo lands in no list.  After the loop the failed photos are
stored in the local backup directory and each backup path is put on
`upload_retry_queue`. -/

/-- Outcome of one `rclone copy` attempt. -/
inductive TransportResult where
  | success
  | nonzeroExit
  | timeout
  | exc
  deriving Repr, DecidableEq

/-- The delivery-relevant state after `upload_photos`: collected links, the
contents of the local backup directory, and the retry queue. -/
structure UploadState where
  links : List Nat
  backup : List Nat
  retryQueue : List Nat
  deriving Repr, DecidableEq

/-- Modelled from the spec: `store_photos_locally` is called from
`upload_photos` and exercised by `test_backup_retry.py` but its definition
is absent from `src/`.  Per §4.6 the failed item "is durably persisted
(local backup directory …)": every photo handed in is copied into the local
backup directory and its backup path returned. -/
def store_photos_locally (photos : List Nat) : List Nat := photos

/-- The upload loop of `upload_photos`: returns
`(photo_links, failed_uploads)` in arrival order.  A timeout contributes to
neither list. -/
def uploadLoop (outcome : Nat → TransportResult) :
    List Nat → List Nat × List Nat
  | [] => ([], [])
  | p :: rest =>
    let r := uploadLoop outcome rest
    match outcome p with
    | .success => (p :: r.1, r.2)
    | .nonzeroExit => (r.1, p :: r.2)
    | .timeout => r
    | .exc => (r.1, p :: r.2)

/-- Embedding of `upload_photos(photo_paths)` with rclone configured: run the upload
loop, then store the failed uploads locally and queue each backup path for
retry. -/
def upload_photos (outcome : Nat → TransportResult) (photos : List Nat) :
    UploadState :=
  let r := uploadLoop outcome photos
  let backupPaths := store_photos_locally r.2
  { links := r.1, backup := backupPaths, retryQueue := backupPaths }

/-! ### Immediate notification gate (`process_tag`)

`process_tag` builds `notification_key = f"{tag_id}_{YYYYMMDD}"`, sends the
immediate notification only when the key is not yet in
`immediate_notifications_sent`, and adds the key right after sending.  The
set is embedded as a list of keys. -/

/-- The key `f"{tag_id}_{date}"`. -/
def notificationKey (tagId date : String) : String := tagId ++ "_" ++ date

/-- The immediate-notification gate inside `process_tag`: whether the
notification is sent this invocation, and the updated
`immediate_notifications_sent` set. -/
def processTagImmediate (sent : List String) (tagId date : String) :
    Bool × List String :=
  if notificationKey tagId date ∈ sent then (false, sent)
  else (true, notificationKey tagId date :: sent)

/-! ## Helper lemmas -/

/-- If a 15-digit run exists anywhere in `d`, the leftmost-match search
succeeds. -/
theorem findTag15_isSome_of_run (d : List Nat) (i : Nat) (h : hasRun15At d i) :
    ∃ t, findTag15 d = some t := by
  induction d generalizing i with
  | nil =>
    exfalso
    unfold hasRun15At isRun15 at h
    simp at h
  | cons c rest ih =>
    rw [findTag15]
    by_cases hc : isRun15 (c :: rest)
    · exact ⟨_, if_pos hc⟩
    · rw [if_neg hc]
      cases i with
      | zero =>
        exfalso
        unfold hasRun15At at h
        simp only [List.drop_zero] at h
        exact hc h
      | succ j =>
        unfold hasRun15At at h
        simp only [List.drop_succ_cons] at h
        exact ih j h

/-- Whatever the leftmost-match search returns is a 15-character all-digit
substring of the searched data. -/
theorem findTag15_spec (d t : List Nat) (h : findTag15 d = some t) :
    t.length = 15 ∧ t.all isDigitChar = true ∧ ∃ p s, d = p ++ t ++ s := by
  induction d with
  | nil => simp [findTag15] at h
  | cons c rest ih =>
    rw [findTag15] at h
    by_cases hc : isRun15 (c :: rest)
    · rw [if_pos hc] at h
      have ht : t = (c :: rest).take 15 := (Option.some.inj h).symm
      subst ht
      unfold isRun15 at hc
      simp only [Bool.and_eq_true, beq_iff_eq] at hc
      exact ⟨hc.1, hc.2, [], (c :: rest).drop 15, by
        rw [List.nil_append, List.take_append_drop]⟩
    · rw [if_neg hc] at h
      obtain ⟨h1, h2, p, s, hps⟩ := ih h
      exact ⟨h1, h2, c :: p, s, by rw [hps]; rfl⟩

/-- The data segment examined by `parse_response` is made of characters of
the response. -/
theorem mem_data_mem_response (response : List Nat) (c : Nat)
    (hc : c ∈ (((response.drop 1).dropLast).take
        (((response.drop 1).dropLast).length - 2))) :
    c ∈ response := by
  have h1 := List.take_subset _ _ hc
  have h2 := List.dropLast_subset _ h1
  exact List.drop_subset _ _ h2

/-! ## Claim theorems -/

/-- C4: For every input string handed to `parse_response` (the serial
read path decodes with `errors='ignore'`, so every character passed is
ASCII, below 128), decoding returns a result `Except.ok o` with
`o : Option tag` — a tag id or `none` — and never the `.error` marking an
exception: all malformed input degrades to "no event this cycle". -/
theorem parse_response_total_on_ascii (response : List Nat)
    (h : ∀ c ∈ response, c < 128) :
    ∃ o, parse_response response = .ok o := by
  unfold parse_response
  by_cases h0 : response = [] ∨ response.head? ≠ some dollarChar ∨
      response.getLast? ≠ some hashChar
  · rw [if_pos h0]; exact ⟨none, rfl⟩
  · rw [if_neg h0]
    simp only []
    by_cases h1 : ((response.drop 1).dropLast).length < 4
    · rw [if_pos h1]; exact ⟨none, rfl⟩
    · rw [if_neg h1]
      have hdata : calculate_bcc (((response.drop 1).dropLast).take
          (((response.drop 1).dropLast).length - 2))
          = some (hexByte (xorBytes (((response.drop 1).dropLast).take
              (((response.drop 1).dropLast).length - 2)))) := by
        unfold calculate_bcc
        rw [if_pos]
        simp only [List.all_eq_true, decide_eq_true_eq]
        exact fun c hc => h c (mem_data_mem_response response c hc)
      rw [hdata]
      dsimp only
      by_cases h2 : hexByte (xorBytes (((response.drop 1).dropLast).take
            (((response.drop 1).dropLast).length - 2)))
          ≠ ((response.drop 1).dropLast).drop
              (((response.drop 1).dropLast).length - 2)
      · rw [if_pos h2]; exact ⟨none, rfl⟩
      · rw [if_neg h2]; exact ⟨_, rfl⟩

/-- Witness for C4 at the concrete well-formed frame `"$AB03#"`. -/
theorem parse_response_total_on_ascii_witness :
    (∀ c ∈ [36, 65, 66, 48, 51, 35], c < 128)
    ∧ ∃ o, parse_response [36, 65, 66, 48, 51, 35] = .ok o :=
  ⟨by decide, parse_response_total_on_ascii [36, 65, 66, 48, 51, 35] (by decide)⟩

/-- C7: frame round-trip: for every ASCII data segment `d` containing a
15-digit numeric substring, the synthetically constructed response
`"$" ++ d ++ BCC(d) ++ "#"` (BCC as two uppercase hex digits) decodes to the
embedded 15-digit tag id — the leftmost 15-digit numeric substring of `d`. -/
theorem frame_roundtrip (d : List Nat) (hascii : ∀ c ∈ d, c < 128)
    (i : Nat) (hrun : hasRun15At d i) :
    ∃ t, parse_response (dollarChar :: d ++ hexByte (xorBytes d) ++ [hashChar])
          = .ok (some t)
      ∧ findTag15 d = some t
      ∧ t.length = 15 ∧ t.all isDigitChar = true ∧ ∃ p s, d = p ++ t ++ s := by
  have hd15 : 15 ≤ d.length := by
    unfold hasRun15At isRun15 at hrun
    simp only [Bool.and_eq_true, beq_iff_eq, List.length_take] at hrun
    have h1 : min 15 (d.drop i).length = 15 := hrun.1
    have h2 : (d.drop i).length ≤ d.length := by
      rw [List.length_drop]; omega
    omega
  obtain ⟨t, ht⟩ := findTag15_isSome_of_run d i hrun
  obtain ⟨hlen, hdig, hinfix⟩ := findTag15_spec d t ht
  refine ⟨t, ?_, ht, hlen, hdig, hinfix⟩
  have hresp : dollarChar :: d ++ hexByte (xorBytes d) ++ [hashChar]
      = (dollarChar :: (d ++ hexByte (xorBytes d))) ++ [hashChar] := by
    simp [List.append_assoc]
  unfold parse_response
  rw [if_neg]
  · have hpayload : ((dollarChar :: d ++ hexByte (xorBytes d) ++ [hashChar]).drop
        1).dropLast = d ++ hexByte (xorBytes d) := by
      rw [hresp]
      simp only [List.cons_append, List.drop_succ_cons, List.drop_zero]
      exact List.dropLast_concat
    rw [hpayload]
    have hplen : (d ++ hexByte (xorBytes d)).length = d.length + 2 := by
      simp [hexByte]
    rw [if_neg (by omega)]
    have hdlen : (d ++ hexByte (xorBytes d)).length - 2 = d.length := by omega
    rw [hdlen, List.take_left d (hexByte (xorBytes d)),
      List.drop_left d (hexByte (xorBytes d))]
    have hbcc : calculate_bcc d = some (hexByte (xorBytes d)) := by
      unfold calculate_bcc
      rw [if_pos]
      simp only [List.all_eq_true, decide_eq_true_eq]
      exact hascii
    simp only [hbcc]
    rw [if_neg (by simp), ht]
  · push_neg
    refine ⟨by simp, by simp [dollarChar], ?_⟩
    rw [hresp, List.getLast?_concat]

/-- Witness for C7 at the concrete data segment `"900263003496836"`. -/
theorem frame_roundtrip_witness :
    (∀ c ∈ [57, 48, 48, 50, 54, 51, 48, 48, 51, 52, 57, 54, 56, 51, 54], c < 128)
    ∧ hasRun15At [57, 48, 48, 50, 54, 51, 48, 48, 51, 52, 57, 54, 56, 51, 54] 0
    ∧ ∃ t, parse_response (dollarChar ::
          [57, 48, 48, 50, 54, 51, 48, 48, 51, 52, 57, 54, 56, 51, 54]
          ++ hexByte (xorBytes
              [57, 48, 48, 50, 54, 51, 48, 48, 51, 52, 57, 54, 56, 51, 54])
          ++ [hashChar]) = .ok (some t)
      ∧ findTag15 [57, 48, 48, 50, 54, 51, 48, 48, 51, 52, 57, 54, 56, 51, 54]
          = some t
      ∧ t.length = 15 ∧ t.all isDigitChar = true
      ∧ ∃ p s, [57, 48, 48, 50, 54, 51, 48, 48, 51, 52, 57, 54, 56, 51, 54]
          = p ++ t ++ s :=
  ⟨by decide, by decide,
    frame_roundtrip [57, 48, 48, 50, 54, 51, 48, 48, 51, 52, 57, 54, 56, 51, 54]
      (by decide) 0 (by decide)⟩

/-- C8: for a tag not yet in `last_tag_time`, the first event passes,
and a second event at `t2` is suppressed as a duplicate exactly when
`t2 - t1 < dedupe_seconds`: strictly closer events collapse to one passed
event, events at least `dedupe_seconds` apart both pass. -/
theorem dedup_window (d : ℚ) (tagId : String) (t1 t2 : ℚ)
    (last : String → Option ℚ) (hfresh : last tagId = none) :
    (is_duplicate_tag d last tagId t1).1 = false
    ∧ (is_duplicate_tag d (is_duplicate_tag d last tagId t1).2 tagId t2).1
        = decide (t2 - t1 < d) := by
  unfold is_duplicate_tag
  rw [hfresh]
  dsimp only
  rw [if_pos rfl]
  constructor
  · rfl
  · by_cases h : t2 - t1 < d <;> simp [h]

/-- Witness for C8: fresh tag, events at 0 and 1 with `dedupe_seconds = 2`. -/
theorem dedup_window_witness :
    (fun (_ : String) => (none : Option ℚ)) "900263003496836" = none
    ∧ ((is_duplicate_tag 2 (fun _ => none) "900263003496836" 0).1 = false
      ∧ (is_duplicate_tag 2
          (is_duplicate_tag 2 (fun _ => none) "900263003496836" 0).2
          "900263003496836" 1).1 = decide ((1 : ℚ) - 0 < 2)) :=
  ⟨rfl, dedup_window 2 "900263003496836" 0 1 (fun _ => none) rfl⟩

/-- C3 counterexample: with `dedupe_seconds = 2`, an event at time 0
followed by a duplicate invocation at time 1: the duplicate is reported,
yet the stored last-seen timestamp stays 0 — it is not updated to the
current time 1, contradicting "updated … regardless of the outcome". -/
theorem dedup_last_seen_stale_on_duplicate :
    (is_duplicate_tag 2 (is_duplicate_tag 2 (fun _ => none)
        "900263003496836" 0).2 "900263003496836" 1).1 = true
    ∧ (is_duplicate_tag 2 (is_duplicate_tag 2 (fun _ => none)
        "900263003496836" 0).2 "900263003496836" 1).2 "900263003496836"
        = some 0
    ∧ (is_duplicate_tag 2 (is_duplicate_tag 2 (fun _ => none)
        "900263003496836" 0).2 "900263003496836" 1).2 "900263003496836"
        ≠ some 1 := by
  refine ⟨?_, ?_, ?_⟩ <;> norm_num [is_duplicate_tag]

/-- C3 amended: the duplicate check updates the stored last-seen
timestamp to the current time only when the event passes; when the
invocation reports a duplicate and suppresses it, the whole `last_tag_time`
mapping — in particular this tag's entry — is left unchanged. -/
theorem dedup_last_seen_update_iff_passed (d : ℚ) (last : String → Option ℚ)
    (tagId : String) (now : ℚ) :
    (is_duplicate_tag d last tagId now).2 tagId
      = (if (is_duplicate_tag d last tagId now).1 then last tagId else some now)
    ∧ ((is_duplicate_tag d last tagId now).1 = true →
        (is_duplicate_tag d last tagId now).2 = last) := by
  unfold is_duplicate_tag
  cases hl : last tagId with
  | none => simp
  | some t =>
    by_cases h : now - t < d
    · simp [h, hl]
    · simp [h, hl]

/-- Witness for the amended C3 (the amended statement's only hypothesis is
the implication inside the conjunction; discharged at a suppressing input). -/
theorem dedup_last_seen_update_iff_passed_witness :
    ((is_duplicate_tag 2 (fun _ => some 0) "900263003496836" 1).2
        "900263003496836"
      = (if (is_duplicate_tag 2 (fun _ => some 0) "900263003496836" 1).1
          then (fun (_ : String) => some (0 : ℚ)) "900263003496836" else some 1))
    ∧ ((is_duplicate_tag 2 (fun _ => some 0) "900263003496836" 1).1 = true →
        (is_duplicate_tag 2 (fun _ => some 0) "900263003496836" 1).2
          = fun _ => some 0) :=
  dedup_last_seen_update_iff_passed 2 (fun _ => some 0) "900263003496836" 1

/-- C10: the function process_tag sends the immediate notification exactly when the
`(tag_id, date)` key is absent from `immediate_notifications_sent`, and adds
the key right after, so a second detection of the same tag on the same day
never triggers a second immediate notification. -/
theorem immediate_notification_once_per_day (sent : List String)
    (tagId date : String) :
    (processTagImmediate sent tagId date).1
        = decide (notificationKey tagId date ∉ sent)
    ∧ (processTagImmediate (processTagImmediate sent tagId date).2
        tagId date).1 = false := by
  unfold processTagImmediate
  by_cases h : notificationKey tagId date ∈ sent
  · simp [h]
  · simp [h]

/-- C5 failing input: with the default `max_photos_per_batch = 5`, six
detections for one chip one second apart (all within the 60-second batch
window) flush as a single batch of six detections: the configured cap is
read into the configuration but never applied by the batch aggregator. -/
theorem batch_cap_not_enforced :
    runAgg 60 [(0, 1), (1, 2), (2, 3), (3, 4), (4, 5), (5, 6)] ⟨[], none⟩
      = [(65, [1, 2, 3, 4, 5, 6])]
    ∧ ¬ ([1, 2, 3, 4, 5, 6] : List Nat).length ≤ 5 := by
  refine ⟨?_, by decide⟩
  norm_num [runAgg, aggStep, aggArrive, aggFire, List.cons_ne_nil]

/-- C2 failing input: a batch consisting of one photo whose
`rclone copy` raises `subprocess.TimeoutExpired`: `upload_photos` finishes
with the photo in no list — not uploaded, not in the local backup
directory, not on the retry queue — because the `TimeoutExpired` handler
only logs and does not append to `failed_uploads`.  The photo is silently
lost to the delivery pipeline. -/
theorem upload_timeout_photo_silently_dropped :
    upload_photos (fun _ => .timeout) [7]
      = { links := [], backup := [], retryQueue := [] } := by
  decide

/-- Every photo whose transport attempt ends in a non-zero exit or an
in-attempt exception is collected in `failed_uploads`. -/
theorem mem_uploadLoop_failed (outcome : Nat → TransportResult)
    (photos : List Nat) (p : Nat) (hp : p ∈ photos)
    (h1 : outcome p ≠ .success) (h2 : outcome p ≠ .timeout) :
    p ∈ (uploadLoop outcome photos).2 := by
  induction photos with
  | nil => cases hp
  | cons q rest ih =>
    rcases List.mem_cons.mp hp with rfl | hmem
    · cases hq : outcome p with
      | success => exact absurd hq h1
      | timeout => exact absurd hq h2
      | nonzeroExit => simp [uploadLoop, hq]
      | exc => simp [uploadLoop, hq]
    · have hrec := ih hmem
      cases hq : outcome q <;> simp [uploadLoop, hq, hrec]

/-- C1: for every photo of a batch on which the cloud transport fails
with a non-zero rclone exit or an error (the outcomes the failure handling
covers — not the dropped timeout case of C2), `upload_photos` stores the
photo in the local backup directory and enqueues its backup path on the
background retry queue; the handling is a total function of the batch, so
no exception leaves the delivery path and the orchestrator's loop
continues. -/
theorem upload_failure_backed_up_and_queued (outcome : Nat → TransportResult)
    (photos : List Nat) (p : Nat) (hp : p ∈ photos)
    (h1 : outcome p ≠ .success) (h2 : outcome p ≠ .timeout) :
    p ∈ (upload_photos outcome photos).backup
    ∧ p ∈ (upload_photos outcome photos).retryQueue := by
  have hmem := mem_uploadLoop_failed outcome photos p hp h1 h2
  exact ⟨hmem, hmem⟩

/-- Witness for C1: one photo, transport returns a non-zero exit. -/
theorem upload_failure_backed_up_and_queued_witness :
    (7 ∈ [7] ∧ (fun (_ : Nat) => TransportResult.nonzeroExit) 7
        ≠ TransportResult.success
      ∧ (fun (_ : Nat) => TransportResult.nonzeroExit) 7
        ≠ TransportResult.timeout)
    ∧ (7 ∈ (upload_photos (fun _ => .nonzeroExit) [7]).backup
      ∧ 7 ∈ (upload_photos (fun _ => .nonzeroExit) [7]).retryQueue) :=
  ⟨⟨by decide, by decide, by decide⟩,
    upload_failure_backed_up_and_queued (fun _ => .nonzeroExit) [7] 7
      (by decide) (by decide) (by decide)⟩

/-- Each timed event arrives no earlier than the previous one and strictly
within `delay` of it. -/
def chainWithin (delay : ℚ) : ℚ → List (ℚ × Nat) → Prop
  | _, [] => True
  | tPrev, (t, _) :: rest => tPrev ≤ t ∧ t < tPrev + delay ∧ chainWithin delay t rest

/-- Arrival time of the last event (`tPrev` when there is none). -/
def lastTime : ℚ → List (ℚ × Nat) → ℚ
  | t, [] => t
  | _, (t, _) :: rest => lastTime t rest

/-- Running the aggregator from a non-empty pending batch whose timer is due
at `tPrev + delay`, over further events each strictly within `delay` of the
previous, produces exactly one flush: all detections appended in arrival
order, flushed `delay` after the last arrival. -/
theorem runAgg_chain (delay : ℚ) (evs : List (ℚ × Nat)) :
    ∀ (acc : List Nat) (tPrev : ℚ), acc ≠ [] → chainWithin delay tPrev evs →
    runAgg delay evs ⟨acc, some (tPrev + delay)⟩
      = [(lastTime tPrev evs + delay, acc ++ evs.map Prod.snd)] := by
  induction evs with
  | nil =>
    intro acc tPrev hacc _
    simp [runAgg, aggFire, hacc, lastTime]
  | cons e rest ih =>
    intro acc tPrev hacc hchain
    obtain ⟨t, d⟩ := e
    obtain ⟨_, hlt, hrest⟩ := hchain
    have hnotdue : ¬ tPrev + delay ≤ t := not_le.mpr hlt
    rw [runAgg]
    simp only [aggStep, hnotdue, if_false, reduceIte, aggArrive]
    rw [List.nil_append]
    rw [ih (acc ++ [d]) t (by simp) hrest]
    simp [lastTime, List.append_assoc]

/-- C6: batch ordering: events `e1..en` for one tag, each arriving
within `batch_delay` of the previous one, flush as exactly one batch
containing all n detections in arrival order, `batch_delay` after the last
arrival; and each new detection replaces the tag's flush timer with one
scheduled at `now + batch_delay` while appending to the pending list. -/
theorem batch_ordering (delay t1 : ℚ) (d1 : Nat) (evs : List (ℚ × Nat))
    (hchain : chainWithin delay t1 evs) :
    runAgg delay ((t1, d1) :: evs) ⟨[], none⟩
      = [(lastTime t1 evs + delay, d1 :: evs.map Prod.snd)]
    ∧ ∀ (t : ℚ) (d : Nat) (s : AggState),
        (aggArrive delay t d s).pending = s.pending ++ [d]
        ∧ (aggArrive delay t d s).deadline = some (t + delay) := by
  constructor
  · rw [runAgg]
    simp only [aggStep, aggArrive, List.nil_append]
    rw [runAgg_chain delay evs [d1] t1 (by simp) hchain]
    simp
  · intro t d s
    exact ⟨rfl, rfl⟩

/-- Witness for C6: the end-to-end scenario of one tag at t = 0 s, 20 s and
45 s with a 60-second batch delay — one flush of all three detections at
t = 105 s. -/
theorem batch_ordering_witness :
    chainWithin 60 0 [(20, 2), (45, 3)]
    ∧ (runAgg 60 [(0, 1), (20, 2), (45, 3)] ⟨[], none⟩
        = [(lastTime 0 [(20, 2), (45, 3)] + 60,
            1 :: [(20, 2), (45, 3)].map Prod.snd)]
      ∧ ∀ (t : ℚ) (d : Nat) (s : AggState),
          (aggArrive 60 t d s).pending = s.pending ++ [d]
          ∧ (aggArrive 60 t d s).deadline = some (t + 60)) :=
  ⟨by norm_num [chainWithin], batch_ordering 60 0 1 [(20, 2), (45, 3)]
    (by norm_num [chainWithin])⟩

/-- The front purge of a sorted history leaves only entries at or above the
cutoff. -/
theorem purgeFront_bound (c : ℚ) (l : List ℚ) (hl : l.Sorted (· ≤ ·)) :
    ∀ t ∈ purgeFront c l, c ≤ t := by
  induction l with
  | nil => simp [purgeFront]
  | cons x rest ih =>
    rw [List.sorted_cons] at hl
    unfold purgeFront
    by_cases hx : x < c
    · rw [if_pos hx]
      exact ih hl.2
    · rw [if_neg hx]
      intro t ht
      rcases List.mem_cons.mp ht with rfl | h
      · exact not_lt.mp hx
      · exact le_trans (not_lt.mp hx) (hl.1 t h)

/-- **C9.** At batch-processing time, for a history of past encounter
timestamps (each at most `now`, kept non-decreasing by append order):
`recent_count` equals the number of recorded encounters — the encounter
just being recorded included — within `[now - recent_window, now]`;
`total_count` equals the retained history size including that encounter;
and the purge performed by the write excludes every entry older than the
7-day retention window. -/
theorem encounter_stats_correct (W now : ℚ) (history : List ℚ)
    (hW : 0 ≤ W) (hpast : ∀ t ∈ history, t ≤ now)
    (hsorted : history.Sorted (· ≤ ·)) :
    (calculate_encounter_stats W now history).1
      = ((history ++ [now]).filter
          (fun t => decide (now - W * 60 ≤ t) && decide (t ≤ now))).length
    ∧ (calculate_encounter_stats W now history).2 = (history ++ [now]).length
    ∧ ∀ t ∈ recordEncounter now history, now - retentionSeconds ≤ t := by
  refine ⟨?_, ?_, ?_⟩
  · unfold calculate_encounter_stats
    rw [List.filter_append]
    have hnow : (now - W * 60 ≤ now) := by nlinarith
    have hsingle : ([now].filter
        (fun t => decide (now - W * 60 ≤ t) && decide (t ≤ now))) = [now] := by
      simp [List.filter, hnow]
    rw [hsingle]
    have hcongr : history.filter
          (fun t => decide (now - W * 60 ≤ t) && decide (t ≤ now))
        = history.filter (fun t => decide (now - W * 60 ≤ t)) := by
      refine List.filter_congr ?_
      intro x hx
      simp [hpast x hx]
    rw [hcongr]
    simp [Nat.add_comm]
  · simp [calculate_encounter_stats]
  · unfold recordEncounter
    refine purgeFront_bound _ _ ?_
    exact List.pairwise_append.mpr ⟨hsorted, List.sorted_singleton now,
      fun a ha b hb => by rw [List.mem_singleton.mp hb]; exact hpast a ha⟩

/-- Witness for C9: window 30 minutes, `now = 10000`, history
`[5000, 8500, 9000]` — two past encounters in the window, so
`recent_count = 3` and `total_count = 4`. -/
theorem encounter_stats_correct_witness :
    ((0 : ℚ) ≤ 30 ∧ (∀ t ∈ ([5000, 8500, 9000] : List ℚ), t ≤ 10000)
      ∧ ([5000, 8500, 9000] : List ℚ).Sorted (· ≤ ·))
    ∧ ((calculate_encounter_stats 30 10000 [5000, 8500, 9000]).1
        = (([5000, 8500, 9000, 10000] : List ℚ).filter
            (fun t => decide ((10000 : ℚ) - 30 * 60 ≤ t)
              && decide (t ≤ 10000))).length
      ∧ (calculate_encounter_stats 30 10000 [5000, 8500, 9000]).2
          = (([5000, 8500, 9000] : List ℚ) ++ [10000]).length
      ∧ ∀ t ∈ recordEncounter 10000 [5000, 8500, 9000],
          (10000 : ℚ) - retentionSeconds ≤ t) :=
  ⟨⟨by norm_num, by norm_num, by decide⟩,
    encounter_stats_correct 30 10000 [5000, 8500, 9000]
      (by norm_num) (by norm_num) (by decide)⟩

end RfidCam
